import Mathlib

/-!
Shallow embedding of the persistence core and repository operations of
`server.py` (tuition-management backend): Python dict-based records are
modelled as association lists over a JSON-like value type, handlers as
pure state-passing functions, and the real-world clock / OS failure modes
as explicit parameters.
-/

namespace ArtsServer

/-- Values of the dynamic (JSON-like) Python data model used by `server.py`.
Dicts keep insertion order, as Python dicts do. -/
inductive PyVal where
  | vNone  : PyVal
  | vBool  : Bool → PyVal
  | vInt   : Int → PyVal
  | vFloat : Rat → PyVal
  | vStr   : String → PyVal
  | vList  : List PyVal → PyVal
  | vDict  : List (String × PyVal) → PyVal

/-- A Python dict with string keys: association list in insertion order. -/
abbrev PyDict := List (String × PyVal)

/-- Python dict lookup `d[k]` / `k in d`: first (unique) binding wins. -/
def dLookup : PyDict → String → Option PyVal
  | [], _ => none
  | (k, v) :: rest, key => if k = key then some v else dLookup rest key

/-- Python dict assignment `d[k] = v`: update in place if the key exists
(keeping its position), otherwise append at the end (insertion order). -/
def dInsert : PyDict → String → PyVal → PyDict
  | [], key, val => [(key, val)]
  | (k, v) :: rest, key, val =>
    if k = key then (k, val) :: rest else (k, v) :: dInsert rest key val

/-- Python `k in d`. -/
def dHasKey (d : PyDict) (key : String) : Bool :=
  (dLookup d key).isSome

/-- Python `d[k]` on a dict known to contain `k` (defaults to None otherwise;
call sites only use it after a containment check). -/
def dGet (d : PyDict) (key : String) : PyVal :=
  (dLookup d key).getD PyVal.vNone

/-- Python `d.get(k, default)`. -/
def dGetD (d : PyDict) (key : String) (default : PyVal) : PyVal :=
  (dLookup d key).getD default

theorem dLookup_dInsert_self (d : PyDict) (k : String) (v : PyVal) :
    dLookup (dInsert d k v) k = some v := by
  induction d with
  | nil => simp [dInsert, dLookup]
  | cons hd tl ih =>
    obtain ⟨k', v'⟩ := hd
    by_cases h : k' = k
    · simp [dInsert, h, dLookup]
    · simp [dInsert, h, dLookup, ih]

theorem dLookup_dInsert_ne (d : PyDict) (k k' : String) (v : PyVal)
    (h : k ≠ k') : dLookup (dInsert d k v) k' = dLookup d k' := by
  induction d with
  | nil => simp [dInsert, dLookup, h]
  | cons hd tl ih =>
    obtain ⟨k0, v0⟩ := hd
    by_cases h0 : k0 = k
    · subst h0
      simp [dInsert, dLookup, h]
    · simp [dInsert, h0, dLookup, ih]

/-- Digits of a numeral as a natural number (caller checks digits). -/
def natOfDigits : List Char → Nat → Nat
  | [], acc => acc
  | c :: cs, acc => natOfDigits cs (acc * 10 + (c.toNat - 48))

/-- All characters are ASCII digits. -/
def allDigits (cs : List Char) : Bool :=
  cs.all Char.isDigit

/-- Whitespace stripped from both ends, as Python's numeric coercions do. -/
def trimChars (cs : List Char) : List Char :=
  ((cs.dropWhile Char.isWhitespace).reverse.dropWhile Char.isWhitespace).reverse

/-- Unsigned decimal literal accepted by Python `float`: `digits`,
`digits.digits`, `digits.` or `.digits`.  (Exponent, `inf`, `nan` and
underscore forms never occur in this system's data and are outside the
modelled input space.) -/
def parseUnsignedDec (cs : List Char) : Option Rat :=
  let ip := cs.takeWhile (fun c => !(c == '.'))
  match cs.drop ip.length with
  | [] => if ip.length > 0 && allDigits ip then some (natOfDigits ip 0) else none
  | _ :: fp =>
    if fp.any (fun c => c == '.') then none
    else if (ip.length > 0 || fp.length > 0) && allDigits ip && allDigits fp then
      some ((natOfDigits ip 0 : Rat) + (natOfDigits fp 0 : Rat) / ((10 : Rat) ^ fp.length))
    else none

/-- Python `float(s)` on a string: optional surrounding whitespace and sign. -/
def parseFloatStr (s : String) : Option Rat :=
  match trimChars s.data with
  | '-' :: rest => (parseUnsignedDec rest).map Neg.neg
  | '+' :: rest => parseUnsignedDec rest
  | cs => parseUnsignedDec cs

/-- Python `int(s)` on a string: optional surrounding whitespace, sign, digits. -/
def parseIntStr (s : String) : Option Int :=
  match trimChars s.data with
  | '-' :: rest =>
    if rest.length > 0 && allDigits rest then
      some (-(natOfDigits rest 0 : Int))
    else none
  | '+' :: rest =>
    if rest.length > 0 && allDigits rest then some (natOfDigits rest 0 : Int) else none
  | cs =>
    if cs.length > 0 && allDigits cs then some (natOfDigits cs 0 : Int) else none

/-- Python `float(v)`: succeeds on bool/int/float and decimal strings,
raises (`none`) on None, lists, dicts and non-numeric strings. -/
def pyFloat : PyVal → Option Rat
  | .vBool b => some (if b then 1 else 0)
  | .vInt n => some (n : Rat)
  | .vFloat q => some q
  | .vStr s => parseFloatStr s
  | _ => none

/-- Python `int(v)`: bool/int pass through, float truncates toward zero,
integer strings parse; everything else raises (`none`). -/
def pyInt : PyVal → Option Int
  | .vBool b => some (if b then 1 else 0)
  | .vInt n => some n
  | .vFloat q => some (q.num.tdiv (q.den : Int))
  | .vStr s => parseIntStr s
  | _ => none

/-- Python truthiness, as used by `admission["dob"] if admission["dob"] else ...`. -/
def pyTruthy : PyVal → Bool
  | .vNone => false
  | .vBool b => b
  | .vInt n => !(n == 0)
  | .vFloat q => !(q == 0)
  | .vStr s => !(s == "")
  | .vList xs => !xs.isEmpty
  | .vDict d => !d.isEmpty

/-- Numeric value of v for arithmetic such as `admission_date / 1000`
(raises, i.e. `none`, on non-numbers). -/
def pyNum : PyVal → Option Rat
  | .vBool b => some (if b then 1 else 0)
  | .vInt n => some (n : Rat)
  | .vFloat q => some q
  | _ => none

/-- The external real-world clock and calendar (Python `datetime`), an
oracle supplied per call: current epoch-ms timestamp, current year and
month, the `strftime` stamp, and `monthOf ms` = `datetime.fromtimestamp(ms/1000).month`. -/
structure Clock where
  nowMs : Int
  nowYear : Int
  nowMonth : Int
  stamp : String
  monthOf : Rat → Int

/-- Outcome handed back to the HTTP layer: payload plus status-code hint. -/
inductive Resp where
  | ok (payload : PyVal)          -- 200
  | created (payload : PyVal)     -- 201
  | badRequest (msg : String)     -- 400
  | notFound (msg : String)       -- 404
  | serverError (msg : String)    -- 500

/-- Whether a response is the 400 validation-failure outcome. -/
def Resp.isBadRequest : Resp → Bool
  | .badRequest _ => true
  | _ => false

/-- Whether a response is the 201 created outcome. -/
def Resp.isCreated : Resp → Bool
  | .created _ => true
  | _ => false

/-- The dict payload of a successful response (empty otherwise). -/
def Resp.dictPayload : Resp → PyDict
  | .ok (.vDict d) => d
  | .created (.vDict d) => d
  | _ => []

/-- The persisted students document `{"students": [...], "next_id": n}`. -/
structure StudentsDoc where
  students : List PyDict
  nextId : Int

/-- The persisted admissions document `{"requests": [...], "next_id": n}`. -/
structure AdmissionsDoc where
  requests : List PyDict
  nextId : Int

/-- Predicate used by `next(s for s in ... if s["id"] == student_id)`.
Python `==` treats `3.0 == 3` as true; a record with no `"id"` key would
raise, and never matches here (theorems about lookup assume well-formed
ids). -/
def hasId (sid : Int) (s : PyDict) : Bool :=
  match dLookup s "id" with
  | some (.vInt n) => n == sid
  | some (.vFloat q) => q == (sid : Rat)
  | _ => false

/-- In-place mutation of the first record matching `p` (the Python object
found by `next(...)` is a reference into the list). -/
def updFirst (p : PyDict → Bool) (f : PyDict → PyDict) : List PyDict → List PyDict
  | [] => []
  | s :: rest => if p s then f s :: rest else s :: updFirst p f rest

/-- First required field missing from the request body, if any. -/
def firstMissing (data : PyDict) : List String → Option String
  | [] => none
  | f :: rest => if dHasKey data f then firstMissing data rest else some f

/-! Document store (`load_json_file`, `save_json_file`, `backup_corrupted_file`). -/

/-- Content of a file on disk: either it parses as JSON or it does not
(`json.load` raises `JSONDecodeError` on it). -/
inductive FileContent where
  | valid (d : PyVal)
  | invalid (raw : String)

/-- The relevant slice of the file system: a map from path to content. -/
structure Fs where
  files : List (String × FileContent)

def fLookup : List (String × FileContent) → String → Option FileContent
  | [], _ => none
  | (p, c) :: rest, path => if p = path then some c else fLookup rest path

def fInsert : List (String × FileContent) → String → FileContent → List (String × FileContent)
  | [], path, c => [(path, c)]
  | (p, c0) :: rest, path, c =>
    if p = path then (p, c) :: rest else (p, c0) :: fInsert rest path c

def fRemove : List (String × FileContent) → String → List (String × FileContent)
  | [], _ => []
  | (p, c) :: rest, path =>
    if p = path then fRemove rest path else (p, c) :: fRemove rest path

/-- Python `os.path.basename` for the slash-separated paths used here. -/
def basename (p : String) : String :=
  (p.splitOn "/").getLastD p

/-- The constant `BACKUP_DIR`. -/
def BACKUP_DIR : String := "backups"

/-- Model of `backup_corrupted_file`: rename the file into the backup
directory under a timestamped `.bak` name (a failing rename is caught and
only logged). -/
def backup_corrupted_file (fs : Fs) (filepath : String) (stamp : String) : Fs :=
  match fLookup fs.files filepath with
  | none => fs
  | some c =>
    let backup_path := BACKUP_DIR ++ "/" ++ basename filepath ++ "." ++ stamp ++ ".bak"
    ⟨fInsert (fRemove fs.files filepath) backup_path c⟩

/-- Model of `load_json_file`: parse the file if it exists; on a parse
failure quarantine it and fall back to the default; on a missing file
return the default directly.  The call never raises (the function is
total and its Python counterpart catches `JSONDecodeError`/`IOError`). -/
def load_json_file (fs : Fs) (filepath : String) (default_data : PyVal)
    (stamp : String) : Fs × PyVal :=
  match fLookup fs.files filepath with
  | none => (fs, default_data)
  | some (.valid d) => (fs, d)
  | some (.invalid _) => (backup_corrupted_file fs filepath stamp, default_data)

/-- Failure mode of one `save_json_file` call, an oracle for the OS and
the serializer: no fault, an `IOError` while writing the temp file, an
`IOError`/`OSError` during `os.replace`, or a `TypeError` raised by
`json.dump` on unserializable data (the latter is not an `IOError` and is
not caught by the handler in `save_json_file`). -/
inductive SaveFault where
  | noFault
  | ioWrite
  | ioReplace
  | typeError

/-- Result of `save_json_file`: the file system afterwards, and whether an
exception propagated to the caller. -/
structure SaveResult where
  fs : Fs
  raised : Bool

/-- Model of `save_json_file`: write `data` to `filepath + ".tmp"`, then
`os.replace` it over `filepath`.  An `IOError` (write or replace) is
caught: the temp file is removed and the function returns normally.  A
serialization `TypeError` is not caught: it propagates and leaves the
partially written temp file behind.  (`save_lock` serializes these calls;
single-call behaviour is modelled.) -/
def save_json_file (fs : Fs) (filepath : String) (data : PyVal)
    (fault : SaveFault) : SaveResult :=
  let temp_file := filepath ++ ".tmp"
  match fault with
  | .noFault => ⟨⟨fInsert (fRemove fs.files temp_file) filepath (.valid data)⟩, false⟩
  | .ioWrite => ⟨⟨fRemove fs.files temp_file⟩, false⟩
  | .ioReplace => ⟨⟨fRemove fs.files temp_file⟩, false⟩
  | .typeError => ⟨⟨fInsert fs.files temp_file (.invalid "partial serialization")⟩, true⟩

/-! Student repository handlers. -/

/-- Result of a student-document handler: the document afterwards, the
HTTP response, and how many `save_json_file(STUDENTS_FILE, ...)` calls
were performed. -/
structure StuResult where
  doc : StudentsDoc
  resp : Resp
  saves : Nat

/-- The required fields checked by `add_student`. -/
def requiredStudentFields : List String :=
  ["name", "className", "guardianPhone", "dob", "admissionDate", "subjects", "fees"]

/-- The student dict literal of `add_student`, with id and coerced fees
supplied. -/
def new_student_of (data : PyDict) (clock : Clock) (newId : Int) (fq : Rat) : PyDict :=
  [("id", .vInt newId),
   ("name", dGet data "name"),
   ("className", dGet data "className"),
   ("school", dGetD data "school" .vNone),
   ("guardianPhone", dGet data "guardianPhone"),
   ("guardianName", dGetD data "guardianName" .vNone),
   ("studentPhone", dGetD data "studentPhone" .vNone),
   ("address", dGetD data "address" .vNone),
   ("dob", dGet data "dob"),
   ("admissionDate", dGet data "admissionDate"),
   ("subjects", dGet data "subjects"),
   ("fees", .vFloat fq),
   ("profileImagePath", dGetD data "profileImagePath" .vNone),
   ("createdAt", .vInt clock.nowMs),
   ("yearlyMonthStatus", dGetD data "yearlyMonthStatus" (.vDict [])),
   ("yearlyPaymentRecords", dGetD data "yearlyPaymentRecords" (.vDict [])),
   ("pendingFeesReminders", dGetD data "pendingFeesReminders" (.vDict []))]

/-- Model of the `add_student` handler.  The student dict literal is
evaluated left to right: `get_next_student_id()` (which increments
`next_id` and saves) runs before `float(data["fees"])`, so a non-numeric
`fees` raises after the id allocation and is answered by the blanket
`except Exception` with a 500, not a 400. -/
def add_student (doc : StudentsDoc) (data : PyDict) (clock : Clock) : StuResult :=
  match firstMissing data requiredStudentFields with
  | some f => ⟨doc, .badRequest ("Missing required field: " ++ f), 0⟩
  | none =>
    let newId := doc.nextId
    match pyFloat (dGet data "fees") with
    | none => ⟨⟨doc.students, doc.nextId + 1⟩, .serverError "could not convert string to float", 1⟩
    | some fq =>
      let student : PyDict := new_student_of data clock newId fq
      ⟨⟨doc.students ++ [student], doc.nextId + 1⟩, .created (.vDict student), 2⟩

/-- Model of the `get_student` handler. -/
def get_student (doc : StudentsDoc) (student_id : Int) : Resp :=
  match doc.students.find? (hasId student_id) with
  | some s => .ok (.vDict s)
  | none => .notFound "Student not found"

/-- The allow-list `updatable_fields` of `update_student`, in source order. -/
def updatable_fields : List String :=
  ["name", "className", "school", "guardianPhone", "guardianName",
   "studentPhone", "address", "dob", "admissionDate", "subjects",
   "fees", "profileImagePath", "yearlyMonthStatus", "yearlyPaymentRecords",
   "pendingFeesReminders"]

/-- The `for field in updatable_fields` loop of `update_student`: fields
present in the input overwrite the stored record in order, `fees` through
`float(...)`.  A `float` failure raises out of the loop, leaving the
already-processed assignments applied (second component: the pending
exception message, if any). -/
def applyUpdates : List String → PyDict → PyDict → PyDict × Option String
  | [], _, student => (student, none)
  | f :: rest, data, student =>
    match dLookup data f with
    | none => applyUpdates rest data student
    | some v =>
      if f = "fees" then
        match pyFloat v with
        | none => (student, some "could not convert string to float")
        | some q => applyUpdates rest data (dInsert student f (.vFloat q))
      else applyUpdates rest data (dInsert student f v)

/-- Model of the `update_student` handler.  The found student is a
reference into the list, so the in-loop assignments land in the document
even when the loop raises; `save_json_file` runs only after the loop. -/
def update_student (doc : StudentsDoc) (student_id : Int) (data : PyDict) : StuResult :=
  match doc.students.find? (hasId student_id) with
  | none => ⟨doc, .notFound "Student not found", 0⟩
  | some s =>
    let r := applyUpdates updatable_fields data s
    let doc1 : StudentsDoc := ⟨updFirst (hasId student_id) (fun _ => r.1) doc.students, doc.nextId⟩
    match r.2 with
    | some e => ⟨doc1, .serverError e, 0⟩
    | none => ⟨doc1, .ok (.vDict r.1), 1⟩

/-- Python `if k not in student: student[k] = {}`. -/
def ensureField (s : PyDict) (k : String) : PyDict :=
  if dHasKey s k then s else dInsert s k (.vDict [])

/-- Python `if year not in student[k]: student[k][year] = {}`; `none` when
`student[k]` is not a dict (`in` raises `TypeError`). -/
def ensureYear (s : PyDict) (k year : String) : Option PyDict :=
  match dLookup s k with
  | some (.vDict d) =>
    some (if dHasKey d year then s else dInsert s k (.vDict (dInsert d year (.vDict []))))
  | _ => none

/-- Python `student[k][year][mkey] = v`; `none` (TypeError) when
`student[k]` or `student[k][year]` is not a dict. -/
def setNested (s : PyDict) (k year mkey : String) (v : PyVal) : Option PyDict :=
  match dLookup s k with
  | some (.vDict d) =>
    match dLookup d year with
    | some (.vDict sub) =>
      some (dInsert s k (.vDict (dInsert d year (.vDict (dInsert sub mkey v)))))
    | _ => none
  | _ => none

/-- The `payment_record` dict literal of `record_payment`, with the amount
already coerced. -/
def payment_record_of (data : PyDict) (clock : Clock) (amt : Rat) : PyDict :=
  [("paidDate", dGetD data "paidDate" (.vInt clock.nowMs)),
   ("amount", .vFloat amt),
   ("notes", dGetD data "notes" .vNone),
   ("paymentMethod", dGetD data "paymentMethod" (.vStr "cash"))]

/-- Model of the `record_payment` handler, following the source order:
year/month extraction, `payment_record` construction (where
`float(data["amount"])` may raise), lazy initialization of the two yearly
maps, then the two nested assignments and one save.  An exception leaves
the in-memory mutations made so far in the document with no save.  A
non-string `"year"` value would become a non-string dict key in Python;
that is outside the modelled input space and mapped to the error path. -/
def record_payment (doc : StudentsDoc) (student_id : Int) (data : PyDict)
    (clock : Clock) : StuResult :=
  match doc.students.find? (hasId student_id) with
  | none => ⟨doc, .notFound "Student not found", 0⟩
  | some s =>
    let yearV := dGetD data "year" (.vStr (toString clock.nowYear))
    match pyInt (dGetD data "month" (.vInt clock.nowMonth)) with
    | none => ⟨doc, .serverError "invalid literal for int()", 0⟩
    | some month =>
    match dLookup data "amount" with
    | none => ⟨doc, .serverError "KeyError: amount", 0⟩
    | some av =>
    match pyFloat av with
    | none => ⟨doc, .serverError "could not convert string to float", 0⟩
    | some amt =>
    match yearV with
    | .vStr year =>
      let payment_record : PyDict := payment_record_of data clock amt
      let errAt (sK : PyDict) : StuResult :=
        ⟨⟨updFirst (hasId student_id) (fun _ => sK) doc.students, doc.nextId⟩,
         .serverError "TypeError", 0⟩
      let s1 := ensureField s "yearlyMonthStatus"
      let s2 := ensureField s1 "yearlyPaymentRecords"
      match ensureYear s2 "yearlyMonthStatus" year with
      | none => errAt s2
      | some s3 =>
      match ensureYear s3 "yearlyPaymentRecords" year with
      | none => errAt s3
      | some s4 =>
      match setNested s4 "yearlyMonthStatus" year (toString month) (.vInt 1) with
      | none => errAt s4
      | some s5 =>
      match setNested s5 "yearlyPaymentRecords" year (toString month) (.vDict payment_record) with
      | none => errAt s5
      | some s6 =>
        ⟨⟨updFirst (hasId student_id) (fun _ => s6) doc.students, doc.nextId⟩,
         .ok (.vDict s6), 1⟩
    | _ => ⟨doc, .serverError "non-string year key: outside the modelled input space", 0⟩

/-! Admission repository handlers (`approve_admission`, `reject_admission`). -/

/-- Result of `approve_admission`: both documents, the response, and the
save counts for the students file and the admissions file. -/
structure ApproveResult where
  sdoc : StudentsDoc
  adoc : AdmissionsDoc
  resp : Resp
  studentSaves : Nat
  admissionSaves : Nat

/-- Result of `reject_admission` (it touches only the admissions document). -/
structure RejectResult where
  adoc : AdmissionsDoc
  resp : Resp
  saves : Nat

/-- Python `admission["status"] != "pending"` negated: equality with the
string `"pending"` (a non-string status never equals it). -/
def statusIsPending : PyVal → Bool
  | .vStr s => s == "pending"
  | _ => false

/-- The admission fields read with `admission[...]` while building the
new student (a missing one raises `KeyError`). -/
def admissionReadFields : List String :=
  ["name", "className", "school", "guardianPhone", "guardianName",
   "studentPhone", "address", "dob", "subjects", "fees"]

/-- The dict comprehension `{str(i): ... for i in range(1, 13)}` of
`approve_admission`: month `i` maps to 2 when `i < adm_dt.month`, else 0
when `i <= now.month`, else 3. -/
def monthStatusArray (m0 nowMonth : Int) : PyDict :=
  (List.range 12).map (fun k =>
    (toString ((k : Int) + 1),
     PyVal.vInt (if ((k : Int) + 1) < m0 then 2
                 else if ((k : Int) + 1) ≤ nowMonth then 0 else 3)))

/-- The student dict literal built by `approve_admission` from a pending
admission (id, resolved admission date and the month-status map supplied). -/
def approved_student_of (adm : PyDict) (clock : Clock) (newId : Int)
    (admissionDateV yearly_month_status : PyVal) : PyDict :=
  [("id", .vInt newId),
   ("name", dGet adm "name"),
   ("className", dGet adm "className"),
   ("school", dGet adm "school"),
   ("guardianPhone", dGet adm "guardianPhone"),
   ("guardianName", dGet adm "guardianName"),
   ("studentPhone", dGet adm "studentPhone"),
   ("address", dGet adm "address"),
   ("dob", if pyTruthy (dGet adm "dob") then dGet adm "dob" else .vInt clock.nowMs),
   ("admissionDate", admissionDateV),
   ("subjects", dGet adm "subjects"),
   ("fees", dGet adm "fees"),
   ("profileImagePath", .vNone),
   ("createdAt", .vInt clock.nowMs),
   ("yearlyMonthStatus", yearly_month_status),
   ("yearlyPaymentRecords", .vDict []),
   ("pendingFeesReminders", .vDict [])]

/-- Model of the `approve_admission` handler.  Order follows the source:
find, pending check, `fromtimestamp(admission_date / 1000)` (raise point
for a non-numeric date), month-status dict for the current year only,
student dict literal (id allocation saves the students document before
the admission's fields are read), append + save, then the admission is
mutated in place and the admissions document saved as a second write. -/
def approve_admission (sdoc : StudentsDoc) (adoc : AdmissionsDoc)
    (request_id : Int) (clock : Clock) : ApproveResult :=
  match adoc.requests.find? (hasId request_id) with
  | none => ⟨sdoc, adoc, .notFound "Admission request not found", 0, 0⟩
  | some adm =>
    match dLookup adm "status" with
    | none => ⟨sdoc, adoc, .serverError "KeyError: status", 0, 0⟩
    | some st =>
      if statusIsPending st then
        let admissionDateV := dGetD adm "admissionDate" (.vInt clock.nowMs)
        match pyNum admissionDateV with
        | none => ⟨sdoc, adoc, .serverError "TypeError", 0, 0⟩
        | some adMs =>
          let m0 := clock.monthOf adMs
          let current_year := toString clock.nowYear
          let yearly_month_status : PyVal :=
            .vDict [(current_year, .vDict (monthStatusArray m0 clock.nowMonth))]
          if admissionReadFields.all (fun f => dHasKey adm f) then
            let newId := sdoc.nextId
            let student : PyDict :=
              approved_student_of adm clock newId admissionDateV yearly_month_status
            let sdoc1 : StudentsDoc := ⟨sdoc.students ++ [student], sdoc.nextId + 1⟩
            let adm1 :=
              dInsert (dInsert (dInsert adm "status" (.vStr "approved"))
                "processedAt" (.vInt clock.nowMs)) "studentId" (.vInt newId)
            let adoc1 : AdmissionsDoc :=
              ⟨updFirst (hasId request_id) (fun _ => adm1) adoc.requests, adoc.nextId⟩
            ⟨sdoc1, adoc1, .ok (.vDict student), 2, 1⟩
          else
            ⟨⟨sdoc.students, sdoc.nextId + 1⟩, adoc, .serverError "KeyError", 1, 0⟩
      else ⟨sdoc, adoc, .badRequest "Request already processed", 0, 0⟩

/-- Model of the `reject_admission` handler. -/
def reject_admission (adoc : AdmissionsDoc) (request_id : Int) (data : PyDict)
    (clock : Clock) : RejectResult :=
  match adoc.requests.find? (hasId request_id) with
  | none => ⟨adoc, .notFound "Admission request not found", 0⟩
  | some adm =>
    match dLookup adm "status" with
    | none => ⟨adoc, .serverError "KeyError: status", 0⟩
    | some st =>
      if statusIsPending st then
        let adm1 :=
          dInsert (dInsert (dInsert adm "status" (.vStr "rejected"))
            "processedAt" (.vInt clock.nowMs)) "rejectionReason" (dGetD data "reason" (.vStr ""))
        ⟨⟨updFirst (hasId request_id) (fun _ => adm1) adoc.requests, adoc.nextId⟩,
         .ok (.vStr "Admission request rejected"), 1⟩
      else ⟨adoc, .badRequest "Request already processed", 0⟩

/-! Supporting lemmas about the store and dict primitives. -/

theorem fLookup_fInsert_self (l : List (String × FileContent)) (p : String)
    (c : FileContent) : fLookup (fInsert l p c) p = some c := by
  induction l with
  | nil => simp [fInsert, fLookup]
  | cons hd tl ih =>
    obtain ⟨p0, c0⟩ := hd
    by_cases h : p0 = p
    · simp [fInsert, h, fLookup]
    · simp [fInsert, h, fLookup, ih]

theorem fLookup_fInsert_ne (l : List (String × FileContent)) (p q : String)
    (c : FileContent) (h : p ≠ q) : fLookup (fInsert l p c) q = fLookup l q := by
  induction l with
  | nil => simp [fInsert, fLookup, h]
  | cons hd tl ih =>
    obtain ⟨p0, c0⟩ := hd
    by_cases h0 : p0 = p
    · subst h0
      simp [fInsert, fLookup, h]
    · simp [fInsert, h0, fLookup, ih]

theorem fLookup_fRemove_self (l : List (String × FileContent)) (p : String) :
    fLookup (fRemove l p) p = none := by
  induction l with
  | nil => simp [fRemove, fLookup]
  | cons hd tl ih =>
    obtain ⟨p0, c0⟩ := hd
    by_cases h : p0 = p
    · simp [fRemove, h, ih]
    · simp [fRemove, fLookup, h, ih]

theorem fLookup_fRemove_ne (l : List (String × FileContent)) (p q : String)
    (h : q ≠ p) : fLookup (fRemove l p) q = fLookup l q := by
  induction l with
  | nil => simp [fRemove]
  | cons hd tl ih =>
    obtain ⟨p0, c0⟩ := hd
    by_cases h0 : p0 = p
    · subst h0
      simp [fRemove, fLookup, Ne.symm h, ih]
    · simp [fRemove, fLookup, h0, ih]

theorem hasId_congr (sid : Int) (s t : PyDict)
    (h : dLookup t "id" = dLookup s "id") : hasId sid t = hasId sid s := by
  unfold hasId
  rw [h]

theorem find?_updFirst_const (p : PyDict → Bool) (t : PyDict) (l : List PyDict)
    (hl : (l.find? p).isSome) (ht : p t = true) :
    (updFirst p (fun _ => t) l).find? p = some t := by
  induction l with
  | nil => simp [List.find?] at hl
  | cons a l ih =>
    by_cases h : p a
    · simp [updFirst, h, List.find?_cons_of_pos, ht]
    · have hl' : (l.find? p).isSome := by
        simpa [List.find?_cons_of_neg, h] using hl
      simp [updFirst, h, List.find?_cons_of_neg, ih hl']

theorem mem_updFirst (p : PyDict → Bool) (t : PyDict) (l : List PyDict) :
    ∀ x ∈ updFirst p (fun _ => t) l, x ∈ l ∨ x = t := by
  induction l with
  | nil => intro x hx; simp [updFirst] at hx
  | cons a l ih =>
    intro x hx
    by_cases h : p a
    · simp only [updFirst, h, if_pos] at hx
      rcases List.mem_cons.mp hx with h1 | h1
      · exact Or.inr h1
      · exact Or.inl (List.mem_cons_of_mem _ h1)
    · simp only [updFirst, h, if_neg, Bool.false_eq_true, not_false_iff] at hx
      rcases List.mem_cons.mp hx with h1 | h1
      · exact Or.inl (h1 ▸ List.mem_cons_self a l)
      · rcases ih x h1 with h2 | h2
        · exact Or.inl (List.mem_cons_of_mem _ h2)
        · exact Or.inr h2

theorem find?_append_left_none {α : Type} {p : α → Bool} {l1 l2 : List α}
    (h : l1.find? p = none) : (l1 ++ l2).find? p = l2.find? p := by
  induction l1 with
  | nil => simp
  | cons a l ih =>
    by_cases hp : p a
    · simp [List.find?_cons_of_pos, hp] at h
    · rw [List.find?_cons_of_neg _ hp] at h
      simpa [List.find?_cons_of_neg _ hp] using ih h

/-! Lemmas about the update loop. -/

/-- The effect of the update loop restricted to a fees-free prefix of the
field list: each field present in the input is written raw. -/
def setFields : List String → PyDict → PyDict → PyDict
  | [], _, s => s
  | f :: fs, data, s =>
    match dLookup data f with
    | none => setFields fs data s
    | some v => setFields fs data (dInsert s f v)

theorem applyUpdates_cons_absent (f : String) (rest : List String)
    (data s : PyDict) (h : dLookup data f = none) :
    applyUpdates (f :: rest) data s = applyUpdates rest data s := by
  simp [applyUpdates, h]

theorem applyUpdates_cons_plain (f : String) (rest : List String)
    (data s : PyDict) (v : PyVal) (h : dLookup data f = some v)
    (hf : f ≠ "fees") :
    applyUpdates (f :: rest) data s = applyUpdates rest data (dInsert s f v) := by
  simp [applyUpdates, h, hf]

theorem applyUpdates_cons_fees_bad (rest : List String) (data s : PyDict)
    (v : PyVal) (h : dLookup data "fees" = some v) (hq : pyFloat v = none) :
    applyUpdates ("fees" :: rest) data s =
      (s, some "could not convert string to float") := by
  simp [applyUpdates, h, hq]

theorem applyUpdates_cons_fees_good (rest : List String) (data s : PyDict)
    (v : PyVal) (q : Rat) (h : dLookup data "fees" = some v)
    (hq : pyFloat v = some q) :
    applyUpdates ("fees" :: rest) data s =
      applyUpdates rest data (dInsert s "fees" (.vFloat q)) := by
  simp [applyUpdates, h, hq]

theorem applyUpdates_frame (fields : List String) (data s : PyDict) (k : String)
    (hk : k ∉ fields ∨ dLookup data k = none) :
    dLookup (applyUpdates fields data s).1 k = dLookup s k := by
  induction fields generalizing s with
  | nil => simp [applyUpdates]
  | cons f rest ih =>
    have hk' : k ∉ rest ∨ dLookup data k = none := by
      rcases hk with h | h
      · exact Or.inl (fun hm => h (List.mem_cons_of_mem _ hm))
      · exact Or.inr h
    have hkf : dLookup data f = none → True := fun _ => trivial
    cases hdf : dLookup data f with
    | none => simpa [applyUpdates, hdf] using ih s hk'
    | some v =>
      have hne : k ≠ f := by
        intro he
        subst he
        rcases hk with h | h
        · exact h (List.mem_cons_self _ _)
        · rw [h] at hdf; exact Option.noConfusion hdf
      by_cases hf : f = "fees"
      · subst hf
        cases hq : pyFloat v with
        | none => simp [applyUpdates, hdf, hq]
        | some q =>
          have := ih (dInsert s "fees" (.vFloat q)) hk'
          rw [dLookup_dInsert_ne _ _ _ _ (Ne.symm hne)] at this
          simpa [applyUpdates, hdf, hq] using this
      · have := ih (dInsert s f v) hk'
        rw [dLookup_dInsert_ne _ _ _ _ (Ne.symm hne)] at this
        simpa [applyUpdates, hdf, hf] using this

theorem applyUpdates_sets_of_success (fields : List String) (data s : PyDict)
    (k : String) (v : PyVal) (hnd : fields.Nodup)
    (hsuc : (applyUpdates fields data s).2 = none)
    (hk : k ∈ fields) (hkf : k ≠ "fees") (hdv : dLookup data k = some v) :
    dLookup (applyUpdates fields data s).1 k = some v := by
  induction fields generalizing s with
  | nil => simp at hk
  | cons f rest ih =>
    have hnd' : rest.Nodup := hnd.of_cons
    rcases List.mem_cons.mp hk with rfl | hkr
    · have hrest : k ∉ rest := (List.nodup_cons.mp hnd).1
      rw [applyUpdates_cons_plain k rest data s v hdv hkf]
      have := applyUpdates_frame rest data (dInsert s k v) k (Or.inl hrest)
      rw [dLookup_dInsert_self] at this
      exact this
    · cases hdf : dLookup data f with
      | none =>
        rw [applyUpdates_cons_absent f rest data s hdf] at hsuc ⊢
        exact ih s hnd' hsuc hkr
      | some w =>
        by_cases hf : f = "fees"
        · subst hf
          cases hq : pyFloat w with
          | none =>
            rw [applyUpdates_cons_fees_bad rest data s w hdf hq] at hsuc
            exact Option.noConfusion hsuc
          | some q =>
            rw [applyUpdates_cons_fees_good rest data s w q hdf hq] at hsuc ⊢
            exact ih _ hnd' hsuc hkr
        · rw [applyUpdates_cons_plain f rest data s w hdf hf] at hsuc ⊢
          exact ih _ hnd' hsuc hkr

theorem applyUpdates_append_no_fees (pre rest : List String) (data s : PyDict)
    (hf : "fees" ∉ pre) :
    applyUpdates (pre ++ rest) data s = applyUpdates rest data (setFields pre data s) := by
  induction pre generalizing s with
  | nil => simp [setFields]
  | cons f fs ih =>
    have hff : f ≠ "fees" := fun he => hf (he ▸ List.mem_cons_self _ _)
    have hfs : "fees" ∉ fs := fun hm => hf (List.mem_cons_of_mem _ hm)
    cases hdf : dLookup data f with
    | none => simp [applyUpdates, hdf, setFields, ih _ hfs]
    | some v => simp [applyUpdates, hdf, hff, setFields, ih _ hfs]

theorem setFields_frame (fields : List String) (data s : PyDict) (k : String)
    (hk : k ∉ fields ∨ dLookup data k = none) :
    dLookup (setFields fields data s) k = dLookup s k := by
  induction fields generalizing s with
  | nil => simp [setFields]
  | cons f rest ih =>
    have hk' : k ∉ rest ∨ dLookup data k = none := by
      rcases hk with h | h
      · exact Or.inl (fun hm => h (List.mem_cons_of_mem _ hm))
      · exact Or.inr h
    cases hdf : dLookup data f with
    | none => simpa [setFields, hdf] using ih s hk'
    | some v =>
      have hne : k ≠ f := by
        intro he
        subst he
        rcases hk with h | h
        · exact h (List.mem_cons_self _ _)
        · rw [h] at hdf; exact Option.noConfusion hdf
      have := ih (dInsert s f v) hk'
      rw [dLookup_dInsert_ne _ _ _ _ (Ne.symm hne)] at this
      simpa [setFields, hdf] using this

theorem setFields_sets (fields : List String) (data s : PyDict)
    (k : String) (v : PyVal) (hnd : fields.Nodup)
    (hk : k ∈ fields) (hdv : dLookup data k = some v) :
    dLookup (setFields fields data s) k = some v := by
  induction fields generalizing s with
  | nil => simp at hk
  | cons f rest ih =>
    rcases List.mem_cons.mp hk with rfl | hkr
    · have hrest : k ∉ rest := (List.nodup_cons.mp hnd).1
      have hstep : setFields (k :: rest) data s = setFields rest data (dInsert s k v) := by
        simp [setFields, hdv]
      rw [hstep]
      have := setFields_frame rest data (dInsert s k v) k (Or.inl hrest)
      rw [dLookup_dInsert_self] at this
      exact this
    · cases hdf : dLookup data f with
      | none =>
        have hstep : setFields (f :: rest) data s = setFields rest data s := by
          simp [setFields, hdf]
        rw [hstep]
        exact ih s hnd.of_cons hkr
      | some w =>
        have hstep : setFields (f :: rest) data s = setFields rest data (dInsert s f w) := by
          simp [setFields, hdf]
        rw [hstep]
        exact ih _ hnd.of_cons hkr

/-! Nested yearly maps: access paths, well-formedness, and the
student-record invariant of the data model. -/

/-- A field value fit for `year in student[k]`: a dict, or not there yet. -/
def isDictOrAbsent : Option PyVal → Bool
  | none => true
  | some (.vDict _) => true
  | _ => false

/-- The dict stored under `k` (empty when absent or not a dict). -/
def fieldDict (s : PyDict) (k : String) : PyDict :=
  match dLookup s k with
  | some (.vDict d) => d
  | _ => []

/-- The dict stored under a year key (empty when absent or not a dict). -/
def subOf (d : PyDict) (year : String) : PyDict :=
  match dLookup d year with
  | some (.vDict sub) => sub
  | _ => []

/-- Net effect of `record_payment` on one yearly map: the year entry gains
(or overwrites) the month key with `v`, other years untouched. -/
def yearWrite (fd : PyDict) (year mkey : String) (v : PyVal) : PyDict :=
  dInsert fd year (.vDict (dInsert (subOf fd year) mkey v))

/-- The value at `student[k][y][m]`, `none` when any level is missing or
not a dict. -/
def nestedAt (s : PyDict) (k y m : String) : Option PyVal :=
  match dLookup s k with
  | some (.vDict d) =>
    match dLookup d y with
    | some (.vDict sub) => dLookup sub m
    | _ => none
  | _ => none

/-- Well-formedness of one yearly map on a student record: the field is a
dict or absent, and each year entry is a dict (vacuous for absent years). -/
def YearlyOk (s : PyDict) (k : String) : Prop :=
  isDictOrAbsent (dLookup s k) = true ∧
  ∀ y, isDictOrAbsent (dLookup (fieldDict s k) y) = true

/-- The data-model invariant: every month key present in
`yearlyPaymentRecords[y]` is marked status 1 in `yearlyMonthStatus[y]`. -/
def StudentInv (s : PyDict) : Prop :=
  ∀ y m, (nestedAt s "yearlyPaymentRecords" y m).isSome = true →
    nestedAt s "yearlyMonthStatus" y m = some (.vInt 1)

theorem dInsert_dInsert_self (d : PyDict) (k : String) (v w : PyVal) :
    dInsert (dInsert d k v) k w = dInsert d k w := by
  induction d with
  | nil => simp [dInsert]
  | cons hd tl ih =>
    obtain ⟨k0, v0⟩ := hd
    by_cases h : k0 = k
    · simp [dInsert, h]
    · simp [dInsert, h, ih]

theorem ensureField_lookup (s : PyDict) (k : String)
    (h : isDictOrAbsent (dLookup s k) = true) :
    dLookup (ensureField s k) k = some (.vDict (fieldDict s k)) ∧
    ∀ k', k' ≠ k → dLookup (ensureField s k) k' = dLookup s k' := by
  cases h0 : dLookup s k with
  | none =>
    refine ⟨?_, ?_⟩
    · unfold ensureField dHasKey
      rw [h0]
      simp [fieldDict, h0, dLookup_dInsert_self]
    · intro k' hk'
      unfold ensureField dHasKey
      rw [h0]
      simp [dLookup_dInsert_ne _ _ _ _ (Ne.symm hk')]
  | some v =>
    cases v with
    | vDict d =>
      refine ⟨?_, ?_⟩
      · unfold ensureField dHasKey
        rw [h0]
        simp [fieldDict, h0]
      · intro k' hk'
        unfold ensureField dHasKey
        rw [h0]
        simp
    | vNone => rw [h0] at h; simp [isDictOrAbsent] at h
    | vBool b => rw [h0] at h; simp [isDictOrAbsent] at h
    | vInt n => rw [h0] at h; simp [isDictOrAbsent] at h
    | vFloat q => rw [h0] at h; simp [isDictOrAbsent] at h
    | vStr t => rw [h0] at h; simp [isDictOrAbsent] at h
    | vList xs => rw [h0] at h; simp [isDictOrAbsent] at h

theorem ensureYear_lookup (s : PyDict) (k year : String) (d : PyDict)
    (h : dLookup s k = some (.vDict d))
    (hy : isDictOrAbsent (dLookup d year) = true) :
    ∃ s3 d3, ensureYear s k year = some s3 ∧
      dLookup s3 k = some (.vDict d3) ∧
      dLookup d3 year = some (.vDict (subOf d year)) ∧
      (∀ y', y' ≠ year → dLookup d3 y' = dLookup d y') ∧
      (∀ k', k' ≠ k → dLookup s3 k' = dLookup s k') ∧
      (∀ m v, dInsert d3 year (.vDict (dInsert (subOf d year) m v)) =
        yearWrite d year m v) := by
  cases h0 : dLookup d year with
  | none =>
    refine ⟨dInsert s k (.vDict (dInsert d year (.vDict []))),
            dInsert d year (.vDict []), ?_, ?_, ?_, ?_, ?_, ?_⟩
    · simp [ensureYear, dHasKey, h, h0]
    · rw [dLookup_dInsert_self]
    · rw [dLookup_dInsert_self]
      simp [subOf, h0]
    · intro y' hy'
      exact dLookup_dInsert_ne _ _ _ _ (Ne.symm hy')
    · intro k' hk'
      exact dLookup_dInsert_ne _ _ _ _ (Ne.symm hk')
    · intro m v
      exact dInsert_dInsert_self d year _ _
  | some w =>
    cases w with
    | vDict sub =>
      refine ⟨s, d, ?_, h, ?_, ?_, ?_, ?_⟩
      · simp [ensureYear, dHasKey, h, h0]
      · rw [h0]
        simp [subOf, h0]
      · intro y' _; rfl
      · intro k' _; rfl
      · intro m v; rfl
    | vNone => rw [h0] at hy; simp [isDictOrAbsent] at hy
    | vBool b => rw [h0] at hy; simp [isDictOrAbsent] at hy
    | vInt n => rw [h0] at hy; simp [isDictOrAbsent] at hy
    | vFloat q => rw [h0] at hy; simp [isDictOrAbsent] at hy
    | vStr t => rw [h0] at hy; simp [isDictOrAbsent] at hy
    | vList xs => rw [h0] at hy; simp [isDictOrAbsent] at hy

theorem nestedAt_or_none (s : PyDict) (k y m : String) :
    nestedAt s k y m = (match dLookup (fieldDict s k) y with
      | some (.vDict sub) => dLookup sub m
      | _ => none) := by
  unfold nestedAt fieldDict
  cases h : dLookup s k with
  | none => simp [dLookup]
  | some v => cases v <;> simp [dLookup]

theorem nestedAt_write_self (s6 s : PyDict) (k year mkey : String) (v : PyVal)
    (h6 : dLookup s6 k = some (.vDict (yearWrite (fieldDict s k) year mkey v))) :
    nestedAt s6 k year mkey = some v := by
  simp only [nestedAt, h6, yearWrite, dLookup_dInsert_self]

theorem nestedAt_write_frame (s6 s : PyDict) (k year mkey : String) (v : PyVal)
    (h6 : dLookup s6 k = some (.vDict (yearWrite (fieldDict s k) year mkey v)))
    (y m' : String) (hne : y ≠ year ∨ m' ≠ mkey) :
    nestedAt s6 k y m' = nestedAt s k y m' := by
  rw [nestedAt_or_none s k y m']
  by_cases hy : y = year
  · subst hy
    have hm : m' ≠ mkey := by
      rcases hne with h | h
      · exact absurd rfl h
      · exact h
    simp only [nestedAt, h6, yearWrite, dLookup_dInsert_self]
    rw [dLookup_dInsert_ne _ _ _ _ (Ne.symm hm)]
    unfold subOf
    cases h0 : dLookup (fieldDict s k) y with
    | none => simp [dLookup]
    | some w => cases w <;> simp [dLookup]
  · simp only [nestedAt, h6, yearWrite]
    rw [dLookup_dInsert_ne _ _ _ _ (Ne.symm hy)]

theorem yearlyOk_write (s6 s : PyDict) (k year mkey : String) (v : PyVal)
    (hwf : ∀ y, isDictOrAbsent (dLookup (fieldDict s k) y) = true)
    (h6 : dLookup s6 k = some (.vDict (yearWrite (fieldDict s k) year mkey v))) :
    YearlyOk s6 k := by
  constructor
  · rw [h6]; rfl
  · intro y
    have hfd6 : fieldDict s6 k = yearWrite (fieldDict s k) year mkey v := by
      simp only [fieldDict, h6]
    rw [hfd6]
    unfold yearWrite
    by_cases hy : y = year
    · subst hy
      rw [dLookup_dInsert_self]
      rfl
    · rw [dLookup_dInsert_ne _ _ _ _ (Ne.symm hy)]
      exact hwf y

theorem setNested_eq (s : PyDict) (k year m : String) (d sub : PyDict)
    (v : PyVal) (h : dLookup s k = some (.vDict d))
    (hs : dLookup d year = some (.vDict sub)) :
    setNested s k year m v =
      some (dInsert s k (.vDict (dInsert d year (.vDict (dInsert sub m v))))) := by
  simp [setNested, h, hs]

/-- Master lemma for a well-formed `record_payment` call: the handler
takes the success path, replaces the found student in place, sets the
month status to 1 and the payment record to the new one (overwriting any
prior record for that month), leaves every other field, year and month
untouched, and preserves well-formedness of both yearly maps. -/
theorem record_payment_spec
    (doc : StudentsDoc) (sid : Int) (data : PyDict) (clock : Clock)
    (s : PyDict) (year : String) (month : Int) (av : PyVal) (amt : Rat)
    (hfind : doc.students.find? (hasId sid) = some s)
    (hy1 : YearlyOk s "yearlyMonthStatus")
    (hy2 : YearlyOk s "yearlyPaymentRecords")
    (hyv : dGetD data "year" (.vStr (toString clock.nowYear)) = .vStr year)
    (hmonth : pyInt (dGetD data "month" (.vInt clock.nowMonth)) = some month)
    (hamt : dLookup data "amount" = some av)
    (hav : pyFloat av = some amt) :
    ∃ s6,
      record_payment doc sid data clock =
        ⟨⟨updFirst (hasId sid) (fun _ => s6) doc.students, doc.nextId⟩,
         .ok (.vDict s6), 1⟩ ∧
      nestedAt s6 "yearlyMonthStatus" year (toString month) = some (.vInt 1) ∧
      nestedAt s6 "yearlyPaymentRecords" year (toString month) =
        some (.vDict (payment_record_of data clock amt)) ∧
      (∀ k, k ≠ "yearlyMonthStatus" → k ≠ "yearlyPaymentRecords" →
        dLookup s6 k = dLookup s k) ∧
      (∀ y m', y ≠ year ∨ m' ≠ toString month →
        nestedAt s6 "yearlyMonthStatus" y m' = nestedAt s "yearlyMonthStatus" y m' ∧
        nestedAt s6 "yearlyPaymentRecords" y m' = nestedAt s "yearlyPaymentRecords" y m') ∧
      YearlyOk s6 "yearlyMonthStatus" ∧ YearlyOk s6 "yearlyPaymentRecords" := by
  obtain ⟨h1self, h1fr⟩ := ensureField_lookup s "yearlyMonthStatus" hy1.1
  have h1ypr : dLookup (ensureField s "yearlyMonthStatus") "yearlyPaymentRecords"
      = dLookup s "yearlyPaymentRecords" := h1fr _ (by decide)
  have h2wf : isDictOrAbsent (dLookup (ensureField s "yearlyMonthStatus")
      "yearlyPaymentRecords") = true := by
    rw [h1ypr]
    exact hy2.1
  obtain ⟨h2self, h2fr⟩ :=
    ensureField_lookup (ensureField s "yearlyMonthStatus") "yearlyPaymentRecords" h2wf
  have hfd2 : fieldDict (ensureField s "yearlyMonthStatus") "yearlyPaymentRecords"
      = fieldDict s "yearlyPaymentRecords" := by
    unfold fieldDict
    rw [h1ypr]
  rw [hfd2] at h2self
  have h2yms : dLookup (ensureField (ensureField s "yearlyMonthStatus")
      "yearlyPaymentRecords") "yearlyMonthStatus"
      = some (.vDict (fieldDict s "yearlyMonthStatus")) := by
    rw [h2fr _ (by decide), h1self]
  obtain ⟨s3, d3, he3, hd3, hd3y, hd3fr, hs3fr, hnorm3⟩ :=
    ensureYear_lookup _ "yearlyMonthStatus" year
      (fieldDict s "yearlyMonthStatus") h2yms (hy1.2 year)
  have h3ypr : dLookup s3 "yearlyPaymentRecords"
      = some (.vDict (fieldDict s "yearlyPaymentRecords")) := by
    rw [hs3fr _ (by decide), h2self]
  obtain ⟨s4, d4, he4, hd4, hd4y, hd4fr, hs4fr, hnorm4⟩ :=
    ensureYear_lookup s3 "yearlyPaymentRecords" year
      (fieldDict s "yearlyPaymentRecords") h3ypr (hy2.2 year)
  have h4yms : dLookup s4 "yearlyMonthStatus" = some (.vDict d3) := by
    rw [hs4fr _ (by decide), hd3]
  have h5 := setNested_eq s4 "yearlyMonthStatus" year (toString month) d3
    (subOf (fieldDict s "yearlyMonthStatus") year) (.vInt 1) h4yms hd3y
  rw [hnorm3] at h5
  have h5ypr : dLookup (dInsert s4 "yearlyMonthStatus"
      (.vDict (yearWrite (fieldDict s "yearlyMonthStatus") year (toString month) (.vInt 1))))
      "yearlyPaymentRecords" = some (.vDict d4) := by
    rw [dLookup_dInsert_ne _ _ _ _ (by decide), hd4]
  have h6 := setNested_eq _ "yearlyPaymentRecords" year (toString month) d4
    (subOf (fieldDict s "yearlyPaymentRecords") year)
    (.vDict (payment_record_of data clock amt)) h5ypr hd4y
  rw [hnorm4] at h6
  have hyms6 : dLookup (dInsert (dInsert s4 "yearlyMonthStatus"
      (.vDict (yearWrite (fieldDict s "yearlyMonthStatus") year (toString month) (.vInt 1))))
      "yearlyPaymentRecords"
      (.vDict (yearWrite (fieldDict s "yearlyPaymentRecords") year (toString month)
        (.vDict (payment_record_of data clock amt))))) "yearlyMonthStatus"
      = some (.vDict (yearWrite (fieldDict s "yearlyMonthStatus") year
          (toString month) (.vInt 1))) := by
    rw [dLookup_dInsert_ne _ _ _ _ (by decide), dLookup_dInsert_self]
  have hypr6 : dLookup (dInsert (dInsert s4 "yearlyMonthStatus"
      (.vDict (yearWrite (fieldDict s "yearlyMonthStatus") year (toString month) (.vInt 1))))
      "yearlyPaymentRecords"
      (.vDict (yearWrite (fieldDict s "yearlyPaymentRecords") year (toString month)
        (.vDict (payment_record_of data clock amt))))) "yearlyPaymentRecords"
      = some (.vDict (yearWrite (fieldDict s "yearlyPaymentRecords") year
          (toString month) (.vDict (payment_record_of data clock amt)))) :=
    dLookup_dInsert_self _ _ _
  refine ⟨_, ?_, nestedAt_write_self _ s _ _ _ _ hyms6,
    nestedAt_write_self _ s _ _ _ _ hypr6, ?_,
    fun y m' hne => ⟨nestedAt_write_frame _ s _ _ _ _ hyms6 y m' hne,
      nestedAt_write_frame _ s _ _ _ _ hypr6 y m' hne⟩,
    yearlyOk_write _ s _ _ _ _ hy1.2 hyms6,
    yearlyOk_write _ s _ _ _ _ hy2.2 hypr6⟩
  · simp only [record_payment, hfind, hyv, hmonth, hamt, hav, he3, he4, h5, h6]
  · intro k hk1 hk2
    rw [dLookup_dInsert_ne _ _ _ _ (Ne.symm hk2),
        dLookup_dInsert_ne _ _ _ _ (Ne.symm hk1),
        hs4fr _ hk2, hs3fr _ hk1, h2fr _ hk2, h1fr _ hk1]

/-! Claims. -/

theorem monthStatusArray_lookup (m0 nowMonth : Int) (i : Int)
    (h1 : 1 ≤ i) (h2 : i ≤ 12) :
    dLookup (monthStatusArray m0 nowMonth) (toString i) =
      some (.vInt (if i < m0 then 2 else if i ≤ nowMonth then 0 else 3)) := by
  interval_cases i <;> rfl

/-! Concrete fixtures for witnesses and counterexamples. -/

/-- A fixed clock: mid-2025, with every timestamp falling in March. -/
def clock0 : Clock := ⟨1755000000000, 2025, 6, "20251012_000000", fun _ => 3⟩

/-- An empty students document. -/
def sdoc0 : StudentsDoc := ⟨[], 1⟩

/-- A pending admission request with all submission fields. -/
def adm_pending : PyDict :=
  [("id", .vInt 1), ("name", .vStr "A"), ("className", .vStr "10"),
   ("school", .vStr ""), ("guardianPhone", .vStr "555"),
   ("guardianName", .vStr ""), ("studentPhone", .vStr ""),
   ("address", .vStr ""), ("dob", .vStr ""),
   ("admissionDate", .vInt 1735689600000),
   ("subjects", .vList [.vStr "Math"]), ("fees", .vFloat 0),
   ("submittedAt", .vInt 0), ("status", .vStr "pending")]

/-- An admissions document holding the single pending request. -/
def adoc_pending : AdmissionsDoc := ⟨[adm_pending], 2⟩

/-- C1: approving a pending admission installs `yearlyMonthStatus` on the
newly created student under exactly one key, the current calendar year,
mapping month `i` in 1..12 by the spec's first-match rule (2 when
`i < m0`, else 0 when `i <=` the current month, else 3, `m0` being the
admission-date month); no entry is created under any other year key, even
when the admission date falls in a prior year. -/
theorem approve_installs_current_year_statuses
    (sdoc : StudentsDoc) (adoc : AdmissionsDoc) (request_id : Int)
    (clock : Clock) (adm : PyDict) (q : Rat)
    (hfind : adoc.requests.find? (hasId request_id) = some adm)
    (hst : dLookup adm "status" = some (.vStr "pending"))
    (hnum : pyNum (dGetD adm "admissionDate" (.vInt clock.nowMs)) = some q)
    (hfields : admissionReadFields.all (fun f => dHasKey adm f) = true) :
    ∃ st, (approve_admission sdoc adoc request_id clock).resp = .ok (.vDict st) ∧
      dLookup st "yearlyMonthStatus" =
        some (.vDict [(toString clock.nowYear,
          .vDict (monthStatusArray (clock.monthOf q) clock.nowMonth))]) ∧
      (∀ i : Int, 1 ≤ i → i ≤ 12 →
        dLookup (monthStatusArray (clock.monthOf q) clock.nowMonth) (toString i) =
          some (.vInt (if i < clock.monthOf q then 2
            else if i ≤ clock.nowMonth then 0 else 3))) ∧
      ∀ y, y ≠ toString clock.nowYear →
        dLookup [(toString clock.nowYear,
          .vDict (monthStatusArray (clock.monthOf q) clock.nowMonth))] y = none := by
  refine ⟨approved_student_of adm clock sdoc.nextId
      (dGetD adm "admissionDate" (.vInt clock.nowMs))
      (.vDict [(toString clock.nowYear,
        .vDict (monthStatusArray (clock.monthOf q) clock.nowMonth))]), ?_, ?_, ?_, ?_⟩
  · simp [approve_admission, hfind, hst, hnum, hfields, statusIsPending]
  · simp [approved_student_of, dLookup]
  · exact fun i h1 h2 => monthStatusArray_lookup _ _ i h1 h2
  · intro y hy
    simp [dLookup, Ne.symm hy]

/-- Witness for C1 at the concrete pending admission and clock. -/
theorem approve_installs_current_year_statuses_witness :
    ∃ st, (approve_admission sdoc0 adoc_pending 1 clock0).resp = .ok (.vDict st) ∧
      dLookup st "yearlyMonthStatus" =
        some (.vDict [("2025", .vDict (monthStatusArray 3 6))]) ∧
      (∀ i : Int, 1 ≤ i → i ≤ 12 →
        dLookup (monthStatusArray 3 6) (toString i) =
          some (.vInt (if i < 3 then 2 else if i ≤ 6 then 0 else 3))) ∧
      ∀ y, y ≠ "2025" →
        dLookup [("2025", .vDict (monthStatusArray 3 6))] y = none :=
  approve_installs_current_year_statuses sdoc0 adoc_pending 1 clock0 adm_pending
    ((1735689600000 : Int) : Rat) rfl rfl rfl rfl

/-- An already-approved admission request (terminal state). -/
def adm_approved : PyDict :=
  [("id", .vInt 1), ("name", .vStr "A"), ("className", .vStr "10"),
   ("school", .vStr ""), ("guardianPhone", .vStr "555"),
   ("guardianName", .vStr ""), ("studentPhone", .vStr ""),
   ("address", .vStr ""), ("dob", .vStr ""),
   ("admissionDate", .vInt 1735689600000),
   ("subjects", .vList [.vStr "Math"]), ("fees", .vFloat 0),
   ("submittedAt", .vInt 0), ("status", .vStr "approved"),
   ("processedAt", .vInt 5), ("studentId", .vInt 1)]

/-- An admissions document holding the single processed request. -/
def adoc_processed : AdmissionsDoc := ⟨[adm_approved], 2⟩

/-- C2: on an admission whose status is not `"pending"`, both approve and
reject fail with the already-processed 400 outcome, and neither the
student document nor the admission document changes (no save happens). -/
theorem processed_admission_immutable
    (sdoc : StudentsDoc) (adoc : AdmissionsDoc) (request_id : Int)
    (clock : Clock) (data : PyDict) (adm : PyDict) (st : PyVal)
    (hfind : adoc.requests.find? (hasId request_id) = some adm)
    (hst : dLookup adm "status" = some st)
    (hsp : statusIsPending st = false) :
    approve_admission sdoc adoc request_id clock =
      ⟨sdoc, adoc, .badRequest "Request already processed", 0, 0⟩ ∧
    reject_admission adoc request_id data clock =
      ⟨adoc, .badRequest "Request already processed", 0⟩ := by
  constructor
  · simp [approve_admission, hfind, hst, hsp]
  · simp [reject_admission, hfind, hst, hsp]

/-- Witness for C2 at the concrete processed admission. -/
theorem processed_admission_immutable_witness :
    approve_admission sdoc0 adoc_processed 1 clock0 =
      ⟨sdoc0, adoc_processed, .badRequest "Request already processed", 0, 0⟩ ∧
    reject_admission adoc_processed 1 [] clock0 =
      ⟨adoc_processed, .badRequest "Request already processed", 0⟩ :=
  processed_admission_immutable sdoc0 adoc_processed 1 clock0 []
    adm_approved (.vStr "approved") rfl rfl rfl

/-- A file system holding one valid students file. -/
def fs0 : Fs := ⟨[("students_data.json", FileContent.valid (.vDict []))]⟩

/-- Counterexample to C3: a save whose atomic rename fails with an
`IOError` removes the temp file and leaves the target intact, but
`save_json_file` returns normally — no error reaches the caller, contrary
to the claim that the error is surfaced. -/
theorem save_failure_error_swallowed_counterexample :
    (save_json_file fs0 "students_data.json" (.vList []) SaveFault.ioReplace).raised
      = false ∧
    fLookup (save_json_file fs0 "students_data.json" (.vList [])
      SaveFault.ioReplace).fs.files "students_data.json"
      = some (FileContent.valid (.vDict [])) ∧
    fLookup (save_json_file fs0 "students_data.json" (.vList [])
      SaveFault.ioReplace).fs.files "students_data.json.tmp" = none :=
  ⟨rfl, rfl, rfl⟩

/-- C3 (amended): for every save call failing with an `IOError` during the
temp-file write or the atomic rename, the temporary sibling file is
removed and the previous content of the target path remains intact, but
the error is suppressed (logged only) rather than surfaced: the call
returns normally. -/
theorem save_io_failure_suppressed_cleanup
    (fs : Fs) (filepath : String) (data : PyVal) (fault : SaveFault)
    (hio : fault = SaveFault.ioWrite ∨ fault = SaveFault.ioReplace) :
    (save_json_file fs filepath data fault).raised = false ∧
    fLookup (save_json_file fs filepath data fault).fs.files (filepath ++ ".tmp")
      = none ∧
    ∀ p, p ≠ filepath ++ ".tmp" →
      fLookup (save_json_file fs filepath data fault).fs.files p
        = fLookup fs.files p := by
  rcases hio with rfl | rfl <;>
    exact ⟨rfl, fLookup_fRemove_self _ _, fun p hp => fLookup_fRemove_ne _ _ _ hp⟩

/-- Witness for the amended C3 at a concrete file system and fault. -/
theorem save_io_failure_suppressed_cleanup_witness :
    (save_json_file fs0 "students_data.json" (.vList []) SaveFault.ioWrite).raised
      = false ∧
    fLookup (save_json_file fs0 "students_data.json" (.vList [])
      SaveFault.ioWrite).fs.files "students_data.json.tmp" = none ∧
    ∀ p, p ≠ "students_data.json.tmp" →
      fLookup (save_json_file fs0 "students_data.json" (.vList [])
        SaveFault.ioWrite).fs.files p = fLookup fs0.files p :=
  save_io_failure_suppressed_cleanup fs0 "students_data.json" (.vList [])
    SaveFault.ioWrite (Or.inl rfl)

/-- C4: loading a file with syntactically invalid content never raises:
it returns the supplied default and moves the bad file to a timestamped
quarantine path in the backup directory (where its content is preserved);
loading a missing file returns the default directly.  (The model is a
total function, mirroring the `except` clause that catches
`JSONDecodeError`/`IOError`.) -/
theorem load_invalid_quarantines_and_defaults :
    (∀ (fs : Fs) (filepath : String) (default_data : PyVal) (stamp raw : String),
      fLookup fs.files filepath = some (.invalid raw) →
      load_json_file fs filepath default_data stamp =
        (⟨fInsert (fRemove fs.files filepath)
          (BACKUP_DIR ++ "/" ++ basename filepath ++ "." ++ stamp ++ ".bak")
          (.invalid raw)⟩, default_data) ∧
      fLookup (load_json_file fs filepath default_data stamp).1.files
        (BACKUP_DIR ++ "/" ++ basename filepath ++ "." ++ stamp ++ ".bak")
        = some (.invalid raw)) ∧
    ∀ (fs : Fs) (filepath : String) (default_data : PyVal) (stamp : String),
      fLookup fs.files filepath = none →
      load_json_file fs filepath default_data stamp = (fs, default_data) := by
  constructor
  · intro fs filepath default_data stamp raw hbad
    have h1 : load_json_file fs filepath default_data stamp =
        (⟨fInsert (fRemove fs.files filepath)
          (BACKUP_DIR ++ "/" ++ basename filepath ++ "." ++ stamp ++ ".bak")
          (.invalid raw)⟩, default_data) := by
      simp [load_json_file, backup_corrupted_file, hbad]
    refine ⟨h1, ?_⟩
    rw [h1]
    exact fLookup_fInsert_self _ _ _
  · intro fs filepath default_data stamp hnone
    simp [load_json_file, hnone]

/-- Witness for C4: a corrupt admissions file is quarantined and the
default returned; a missing students file yields the default directly. -/
theorem load_invalid_quarantines_and_defaults_witness :
    (load_json_file ⟨[("admission_requests.json", FileContent.invalid "junk")]⟩
        "admission_requests.json" (.vDict []) "20251012_000000" =
      (⟨fInsert (fRemove [("admission_requests.json", FileContent.invalid "junk")]
          "admission_requests.json")
        (BACKUP_DIR ++ "/" ++ basename "admission_requests.json" ++ "." ++
          "20251012_000000" ++ ".bak") (.invalid "junk")⟩, .vDict []) ∧
      fLookup (load_json_file ⟨[("admission_requests.json", FileContent.invalid "junk")]⟩
          "admission_requests.json" (.vDict []) "20251012_000000").1.files
        (BACKUP_DIR ++ "/" ++ basename "admission_requests.json" ++ "." ++
          "20251012_000000" ++ ".bak") = some (.invalid "junk")) ∧
    load_json_file ⟨[]⟩ "students_data.json" (.vDict []) "20251012_000000" =
      (⟨[]⟩, .vDict []) :=
  ⟨load_invalid_quarantines_and_defaults.1
      ⟨[("admission_requests.json", FileContent.invalid "junk")]⟩
      "admission_requests.json" (.vDict []) "20251012_000000" "junk" rfl,
   load_invalid_quarantines_and_defaults.2 ⟨[]⟩ "students_data.json"
      (.vDict []) "20251012_000000" rfl⟩

/-- A create input with all required fields but a non-numeric fees value. -/
def student_data_bad_fees : PyDict :=
  [("name", .vStr "A"), ("className", .vStr "10"), ("guardianPhone", .vStr "555"),
   ("dob", .vInt 0), ("admissionDate", .vInt 0), ("subjects", .vList [.vStr "Math"]),
   ("fees", .vStr "abc")]

/-- A create input with all required fields and a negative numeric fees. -/
def student_data_neg_fees : PyDict :=
  [("name", .vStr "A"), ("className", .vStr "10"), ("guardianPhone", .vStr "555"),
   ("dob", .vInt 0), ("admissionDate", .vInt 0), ("subjects", .vList [.vStr "Math"]),
   ("fees", .vInt (-5))]

/-- Counterexample to C5: with every required field present and fees the
non-numeric string `"abc"`, create answers with the unexpected-failure 500
outcome, not a 400 validation failure; and with fees `-5` it succeeds and
stores a negative decimal, so fees is not coerced to a non-negative one. -/
theorem create_fees_validation_counterexample :
    (add_student sdoc0 student_data_bad_fees clock0).resp
      = .serverError "could not convert string to float" ∧
    (add_student sdoc0 student_data_bad_fees clock0).resp.isBadRequest = false ∧
    (add_student sdoc0 student_data_neg_fees clock0).resp.isCreated = true ∧
    dLookup (add_student sdoc0 student_data_neg_fees clock0).resp.dictPayload "fees"
      = some (.vFloat ((-5 : Int) : Rat)) ∧
    ((-5 : Int) : Rat) < 0 :=
  ⟨rfl, rfl, rfl, rfl, by norm_num⟩

/-- C5 (amended): a create input with all required fields but a
non-numeric fees value fails with the unexpected-failure 500 outcome
(after the id allocation already bumped and saved `next_id`), not with a
400 `ValidationError`; on success, fees is coerced to a decimal with no
sign check — the stored value is exactly the coercion's result, negative
values included. -/
theorem create_fees_coercion_behaviour
    (doc : StudentsDoc) (data : PyDict) (clock : Clock)
    (hreq : firstMissing data requiredStudentFields = none) :
    (pyFloat (dGet data "fees") = none →
      add_student doc data clock =
        ⟨⟨doc.students, doc.nextId + 1⟩,
         .serverError "could not convert string to float", 1⟩) ∧
    ∀ q : Rat, pyFloat (dGet data "fees") = some q →
      (add_student doc data clock).resp.isCreated = true ∧
      dLookup (add_student doc data clock).resp.dictPayload "fees"
        = some (.vFloat q) := by
  constructor
  · intro hbad
    simp [add_student, hreq, hbad]
  · intro q hq
    constructor
    · simp [add_student, hreq, hq, Resp.isCreated]
    · simp [add_student, hreq, hq, Resp.dictPayload, new_student_of, dLookup]

/-- Witness for the amended C5 at the two concrete inputs. -/
theorem create_fees_coercion_behaviour_witness :
    add_student sdoc0 student_data_bad_fees clock0 =
      ⟨⟨sdoc0.students, sdoc0.nextId + 1⟩,
       .serverError "could not convert string to float", 1⟩ ∧
    (add_student sdoc0 student_data_neg_fees clock0).resp.isCreated = true ∧
    dLookup (add_student sdoc0 student_data_neg_fees clock0).resp.dictPayload "fees"
      = some (.vFloat ((-5 : Int) : Rat)) :=
  ⟨(create_fees_coercion_behaviour sdoc0 student_data_bad_fees clock0 rfl).1 rfl,
   ((create_fees_coercion_behaviour sdoc0 student_data_neg_fees clock0 rfl).2 _ rfl).1,
   ((create_fees_coercion_behaviour sdoc0 student_data_neg_fees clock0 rfl).2 _ rfl).2⟩

/-- C6: calling `record_payment` twice for the same student, year and
month with different payloads leaves the month status equal to 1 and the
month's payment record equal to exactly the second call's record —
last write wins, a single record per month, no duplication. -/
theorem record_payment_last_write_wins
    (doc : StudentsDoc) (sid : Int) (clock : Clock) (s : PyDict)
    (year : String) (month : Int)
    (data1 data2 : PyDict) (av1 av2 : PyVal) (a1 a2 : Rat)
    (hfind : doc.students.find? (hasId sid) = some s)
    (hy1 : YearlyOk s "yearlyMonthStatus")
    (hy2 : YearlyOk s "yearlyPaymentRecords")
    (hyv1 : dGetD data1 "year" (.vStr (toString clock.nowYear)) = .vStr year)
    (hyv2 : dGetD data2 "year" (.vStr (toString clock.nowYear)) = .vStr year)
    (hm1 : pyInt (dGetD data1 "month" (.vInt clock.nowMonth)) = some month)
    (hm2 : pyInt (dGetD data2 "month" (.vInt clock.nowMonth)) = some month)
    (ha1 : dLookup data1 "amount" = some av1) (hav1 : pyFloat av1 = some a1)
    (ha2 : dLookup data2 "amount" = some av2) (hav2 : pyFloat av2 = some a2) :
    ∃ s2,
      (record_payment (record_payment doc sid data1 clock).doc sid data2 clock).resp
        = .ok (.vDict s2) ∧
      (record_payment (record_payment doc sid data1 clock).doc sid
        data2 clock).doc.students.find? (hasId sid) = some s2 ∧
      nestedAt s2 "yearlyMonthStatus" year (toString month) = some (.vInt 1) ∧
      nestedAt s2 "yearlyPaymentRecords" year (toString month)
        = some (.vDict (payment_record_of data2 clock a2)) := by
  obtain ⟨s6a, heq1, hpm1, hpr1, hfr1, hnest1, hok1a, hok1b⟩ :=
    record_payment_spec doc sid data1 clock s year month av1 a1
      hfind hy1 hy2 hyv1 hm1 ha1 hav1
  have hid1 : dLookup s6a "id" = dLookup s "id" := hfr1 "id" (by decide) (by decide)
  have hhas : hasId sid s = true := List.find?_some hfind
  have hhas1 : hasId sid s6a = true := by
    rw [hasId_congr sid s s6a hid1]
    exact hhas
  have hfind1 : (record_payment doc sid data1 clock).doc.students.find? (hasId sid)
      = some s6a := by
    rw [heq1]
    exact find?_updFirst_const _ _ _ (by rw [hfind]; rfl) hhas1
  obtain ⟨s6b, heq2, hpm2, hpr2, hfr2, hnest2, hok2a, hok2b⟩ :=
    record_payment_spec _ sid data2 clock s6a year month av2 a2
      hfind1 hok1a hok1b hyv2 hm2 ha2 hav2
  have hid2 : dLookup s6b "id" = dLookup s6a "id" := hfr2 "id" (by decide) (by decide)
  have hhas2 : hasId sid s6b = true := by
    rw [hasId_congr sid s6a s6b hid2]
    exact hhas1
  refine ⟨s6b, ?_, ?_, hpm2, hpr2⟩
  · rw [heq2]
  · rw [heq2]
    exact find?_updFirst_const _ _ _ (by rw [hfind1]; rfl) hhas2

/-- A student with empty yearly maps, and a one-student document. -/
def s_pay : PyDict :=
  [("id", .vInt 1), ("name", .vStr "A"),
   ("yearlyMonthStatus", .vDict []), ("yearlyPaymentRecords", .vDict [])]

/-- Document holding `s_pay`. -/
def doc_pay : StudentsDoc := ⟨[s_pay], 2⟩

/-- First payment payload: April 2025, amount 100. -/
def pay_data1 : PyDict :=
  [("year", .vStr "2025"), ("month", .vInt 4), ("amount", .vInt 100)]

/-- Second payment payload: April 2025, amount 250. -/
def pay_data2 : PyDict :=
  [("year", .vStr "2025"), ("month", .vInt 4), ("amount", .vInt 250)]

/-- Witness for C6 at the concrete student and two differing amounts. -/
theorem record_payment_last_write_wins_witness :
    ∃ s2,
      (record_payment (record_payment doc_pay 1 pay_data1 clock0).doc 1
        pay_data2 clock0).resp = .ok (.vDict s2) ∧
      (record_payment (record_payment doc_pay 1 pay_data1 clock0).doc 1
        pay_data2 clock0).doc.students.find? (hasId 1) = some s2 ∧
      nestedAt s2 "yearlyMonthStatus" "2025" (toString (4 : Int)) = some (.vInt 1) ∧
      nestedAt s2 "yearlyPaymentRecords" "2025" (toString (4 : Int))
        = some (.vDict (payment_record_of pay_data2 clock0 ((250 : Int) : Rat))) :=
  record_payment_last_write_wins doc_pay 1 clock0 s_pay "2025" 4
    pay_data1 pay_data2 (.vInt 100) (.vInt 250) ((100 : Int) : Rat) ((250 : Int) : Rat)
    rfl ⟨rfl, fun _ => rfl⟩ ⟨rfl, fun _ => rfl⟩ rfl rfl rfl rfl rfl rfl rfl rfl

/-- C7: update overwrites only allow-listed fields that are present in the
input; every field outside the allow-list or absent from the input keeps
its stored value — in particular `id` and `createdAt` are never mutated —
and on success each present allow-listed field (fees aside, which is
coerced) holds exactly the input's value. -/
theorem update_touches_only_allowlisted_present_fields
    (doc : StudentsDoc) (student_id : Int) (data : PyDict) (s : PyDict)
    (hfind : doc.students.find? (hasId student_id) = some s) :
    ∃ s', (update_student doc student_id data).doc.students.find? (hasId student_id)
        = some s' ∧
      (∀ k, k ∉ updatable_fields ∨ dLookup data k = none →
        dLookup s' k = dLookup s k) ∧
      dLookup s' "id" = dLookup s "id" ∧
      dLookup s' "createdAt" = dLookup s "createdAt" ∧
      ∀ p, (update_student doc student_id data).resp = .ok p →
        ∀ k v, k ∈ updatable_fields → k ≠ "fees" → dLookup data k = some v →
          dLookup s' k = some v := by
  have hdoc : (update_student doc student_id data).doc =
      ⟨updFirst (hasId student_id)
        (fun _ => (applyUpdates updatable_fields data s).1) doc.students, doc.nextId⟩ := by
    cases h2 : (applyUpdates updatable_fields data s).2 <;>
      simp [update_student, hfind, h2]
  have hid : dLookup (applyUpdates updatable_fields data s).1 "id" = dLookup s "id" :=
    applyUpdates_frame updatable_fields data s "id" (Or.inl (by decide))
  have hhas : hasId student_id (applyUpdates updatable_fields data s).1 = true := by
    rw [hasId_congr student_id s _ hid]
    exact List.find?_some hfind
  refine ⟨(applyUpdates updatable_fields data s).1, ?_,
    fun k hk => applyUpdates_frame updatable_fields data s k hk, hid,
    applyUpdates_frame updatable_fields data s "createdAt" (Or.inl (by decide)),
    ?_⟩
  · rw [hdoc]
    exact find?_updFirst_const _ _ _ (by rw [hfind]; rfl) hhas
  · intro p hp k v hk hkf hdv
    cases h2 : (applyUpdates updatable_fields data s).2 with
    | none =>
      exact applyUpdates_sets_of_success updatable_fields data s k v
        (by decide) h2 hk hkf hdv
    | some e =>
      rw [update_student, hfind] at hp
      simp only [h2] at hp
      exact absurd hp (by simp)

/-- An update input touching one allow-listed field and one unknown field. -/
def upd_data : PyDict := [("name", .vStr "B"), ("hobby", .vStr "chess")]

/-- Witness for C7 at a concrete student and update input. -/
theorem update_touches_only_allowlisted_present_fields_witness :
    ∃ s', (update_student doc_pay 1 upd_data).doc.students.find? (hasId 1)
        = some s' ∧
      (∀ k, k ∉ updatable_fields ∨ dLookup upd_data k = none →
        dLookup s' k = dLookup s_pay k) ∧
      dLookup s' "id" = dLookup s_pay "id" ∧
      dLookup s' "createdAt" = dLookup s_pay "createdAt" ∧
      ∀ p, (update_student doc_pay 1 upd_data).resp = .ok p →
        ∀ k v, k ∈ updatable_fields → k ≠ "fees" → dLookup upd_data k = some v →
          dLookup s' k = some v :=
  update_touches_only_allowlisted_present_fields doc_pay 1 upd_data s_pay rfl

/-- The allow-listed fields processed before `fees` in the update loop,
in source order. -/
def fieldsBeforeFees : List String :=
  ["name", "className", "school", "guardianPhone", "guardianName",
   "studentPhone", "address", "dob", "admissionDate", "subjects"]

/-- C10: an update whose input holds a non-numeric fees value together
with other allow-listed fields returns an error and persists nothing
(zero saves), yet every allow-listed field processed before `fees` that
is present in the input has already been overwritten on the in-memory
record; fields outside the allow-list or absent stay untouched. -/
theorem update_nonatomic_on_fees_error
    (doc : StudentsDoc) (student_id : Int) (data : PyDict) (s : PyDict) (fv : PyVal)
    (hfind : doc.students.find? (hasId student_id) = some s)
    (hfv : dLookup data "fees" = some fv)
    (hnn : pyFloat fv = none) :
    (update_student doc student_id data).resp
      = .serverError "could not convert string to float" ∧
    (update_student doc student_id data).saves = 0 ∧
    ∃ s', (update_student doc student_id data).doc.students.find? (hasId student_id)
        = some s' ∧
      (∀ k v, k ∈ fieldsBeforeFees → dLookup data k = some v →
        dLookup s' k = some v) ∧
      ∀ k, k ∉ updatable_fields ∨ dLookup data k = none →
        dLookup s' k = dLookup s k := by
  have happ : applyUpdates updatable_fields data s =
      (setFields fieldsBeforeFees data s, some "could not convert string to float") := by
    have h1 : updatable_fields = fieldsBeforeFees ++ "fees" ::
        ["profileImagePath", "yearlyMonthStatus", "yearlyPaymentRecords",
         "pendingFeesReminders"] := rfl
    rw [h1, applyUpdates_append_no_fees _ _ data s (by decide),
        applyUpdates_cons_fees_bad _ data _ fv hfv hnn]
  have hupd : update_student doc student_id data =
      ⟨⟨updFirst (hasId student_id)
          (fun _ => setFields fieldsBeforeFees data s) doc.students, doc.nextId⟩,
       .serverError "could not convert string to float", 0⟩ := by
    simp [update_student, hfind, happ]
  have hid : dLookup (setFields fieldsBeforeFees data s) "id" = dLookup s "id" :=
    setFields_frame fieldsBeforeFees data s "id" (Or.inl (by decide))
  have hhas : hasId student_id (setFields fieldsBeforeFees data s) = true := by
    rw [hasId_congr student_id s _ hid]
    exact List.find?_some hfind
  refine ⟨by rw [hupd], by rw [hupd], setFields fieldsBeforeFees data s, ?_, ?_, ?_⟩
  · rw [hupd]
    exact find?_updFirst_const _ _ _ (by rw [hfind]; rfl) hhas
  · exact fun k v hk hdv => setFields_sets fieldsBeforeFees data s k v (by decide) hk hdv
  · intro k hk
    have hsub : ∀ x ∈ fieldsBeforeFees, x ∈ updatable_fields := by decide
    apply setFields_frame
    rcases hk with h | h
    · exact Or.inl (fun hm => h (hsub k hm))
    · exact Or.inr h

/-- An update input with a non-numeric fees and two earlier fields. -/
def upd_bad_fees : PyDict :=
  [("name", .vStr "B"), ("guardianPhone", .vStr "999"), ("fees", .vStr "abc")]

/-- Witness for C10 at a concrete student and input. -/
theorem update_nonatomic_on_fees_error_witness :
    (update_student doc_pay 1 upd_bad_fees).resp
      = .serverError "could not convert string to float" ∧
    (update_student doc_pay 1 upd_bad_fees).saves = 0 ∧
    ∃ s', (update_student doc_pay 1 upd_bad_fees).doc.students.find? (hasId 1)
        = some s' ∧
      (∀ k v, k ∈ fieldsBeforeFees → dLookup upd_bad_fees k = some v →
        dLookup s' k = some v) ∧
      ∀ k, k ∉ updatable_fields ∨ dLookup upd_bad_fees k = none →
        dLookup s' k = dLookup s_pay k :=
  update_nonatomic_on_fees_error doc_pay 1 upd_bad_fees s_pay (.vStr "abc")
    rfl rfl rfl

/-- C9: for a valid create input (on a document whose existing ids are all
below `next_id`, as the allocator guarantees), create followed by get with
the returned id yields exactly the record that create returned. -/
theorem create_then_get_roundtrip
    (doc : StudentsDoc) (data : PyDict) (clock : Clock)
    (hids : ∀ t ∈ doc.students, ∃ n : Int,
      dLookup t "id" = some (.vInt n) ∧ n < doc.nextId)
    (hreq : firstMissing data requiredStudentFields = none)
    (q : Rat) (hfees : pyFloat (dGet data "fees") = some q) :
    ∃ st, (add_student doc data clock).resp = .created (.vDict st) ∧
      dLookup st "id" = some (.vInt doc.nextId) ∧
      get_student (add_student doc data clock).doc doc.nextId = .ok (.vDict st) := by
  have hadd : add_student doc data clock =
      ⟨⟨doc.students ++ [new_student_of data clock doc.nextId q], doc.nextId + 1⟩,
       .created (.vDict (new_student_of data clock doc.nextId q)), 2⟩ := by
    simp [add_student, hreq, hfees]
  have hidlit : dLookup (new_student_of data clock doc.nextId q) "id"
      = some (.vInt doc.nextId) := rfl
  have hnone : doc.students.find? (hasId doc.nextId) = none := by
    rw [List.find?_eq_none]
    intro t ht
    obtain ⟨n, hn, hlt⟩ := hids t ht
    simp [hasId, hn]
    omega
  have hhaslit : hasId doc.nextId (new_student_of data clock doc.nextId q) = true := by
    simp [hasId, hidlit]
  refine ⟨new_student_of data clock doc.nextId q, by rw [hadd], hidlit, ?_⟩
  rw [hadd]
  have hfound : (doc.students ++ [new_student_of data clock doc.nextId q]).find?
      (hasId doc.nextId) = some (new_student_of data clock doc.nextId q) := by
    rw [find?_append_left_none hnone]
    simp [List.find?_cons_of_pos, hhaslit]
  simp [get_student, hfound]

/-- A valid create input. -/
def student_data_ok : PyDict :=
  [("name", .vStr "C"), ("className", .vStr "9"), ("guardianPhone", .vStr "123"),
   ("dob", .vInt 5), ("admissionDate", .vInt 6), ("subjects", .vList [.vStr "Sci"]),
   ("fees", .vInt 300)]

/-- Witness for C9 at a concrete one-student document and valid input. -/
theorem create_then_get_roundtrip_witness :
    ∃ st, (add_student doc_pay student_data_ok clock0).resp = .created (.vDict st) ∧
      dLookup st "id" = some (.vInt 2) ∧
      get_student (add_student doc_pay student_data_ok clock0).doc 2
        = .ok (.vDict st) :=
  create_then_get_roundtrip doc_pay student_data_ok clock0
    (by
      intro t ht
      have ht' : t = s_pay := by simpa [doc_pay] using ht
      subst ht'
      exact ⟨1, rfl, by norm_num [doc_pay]⟩)
    rfl ((300 : Int) : Rat) rfl

/-- An update input overwriting `yearlyPaymentRecords` wholesale with a
January 2025 record, without touching `yearlyMonthStatus`. -/
def upd_records_only : PyDict :=
  [("yearlyPaymentRecords",
    .vDict [("2025", .vDict [("1", .vDict [("amount", .vFloat 100)])])])]

/-- The student `s_pay` after the records-only update. -/
def s_pay_after : PyDict :=
  [("id", .vInt 1), ("name", .vStr "A"),
   ("yearlyMonthStatus", .vDict []),
   ("yearlyPaymentRecords",
    .vDict [("2025", .vDict [("1", .vDict [("amount", .vFloat 100)])])])]

/-- Counterexample to C8: a student satisfying the invariant, after a
successful `update_student` call whose input holds a payment record for
January 2025 but no matching month status, violates the invariant —
update does not preserve it. -/
theorem invariant_broken_by_update_counterexample :
    StudentInv s_pay ∧
    (update_student doc_pay 1 upd_records_only).resp = .ok (.vDict s_pay_after) ∧
    (update_student doc_pay 1 upd_records_only).doc.students = [s_pay_after] ∧
    ¬ StudentInv s_pay_after := by
  refine ⟨?_, rfl, rfl, ?_⟩
  · intro y m h
    simp [nestedAt, s_pay, dLookup] at h
  · intro h
    have h2 := h "2025" "1" (by rfl)
    exact absurd h2 (by simp [nestedAt, s_pay_after, dLookup])

/-- C8 (amended): `record_payment` preserves the student-record invariant
on every document whose records satisfy it together with well-formed
yearly maps, and `approve_admission` only ever adds a student with empty
payment records, which satisfies it trivially; `update_student` is
excluded: it can overwrite `yearlyPaymentRecords` and `yearlyMonthStatus`
wholesale from the input and thereby break the invariant. -/
theorem invariant_preserved_by_payment_and_approval :
    (∀ (doc : StudentsDoc) (sid : Int) (data : PyDict) (clock : Clock),
      (∀ t ∈ doc.students, StudentInv t ∧ YearlyOk t "yearlyMonthStatus" ∧
        YearlyOk t "yearlyPaymentRecords") →
      ∀ t' ∈ (record_payment doc sid data clock).doc.students, StudentInv t') ∧
    ∀ (sdoc : StudentsDoc) (adoc : AdmissionsDoc) (rid : Int) (clock : Clock),
      (∀ t ∈ sdoc.students, StudentInv t) →
      ∀ t' ∈ (approve_admission sdoc adoc rid clock).sdoc.students, StudentInv t' := by
  constructor
  · intro doc sid data clock hwf t' ht'
    cases hfind : doc.students.find? (hasId sid) with
    | none =>
      simp [record_payment, hfind] at ht'
      exact (hwf t' ht').1
    | some s =>
      cases hm : pyInt (dGetD data "month" (.vInt clock.nowMonth)) with
      | none =>
        simp [record_payment, hfind, hm] at ht'
        exact (hwf t' ht').1
      | some month =>
        cases ha : dLookup data "amount" with
        | none =>
          simp [record_payment, hfind, hm, ha] at ht'
          exact (hwf t' ht').1
        | some av =>
          cases hav : pyFloat av with
          | none =>
            simp [record_payment, hfind, hm, ha, hav] at ht'
            exact (hwf t' ht').1
          | some amt =>
            cases hyv : dGetD data "year" (.vStr (toString clock.nowYear)) with
            | vNone =>
              simp [record_payment, hfind, hm, ha, hav, hyv] at ht'
              exact (hwf t' ht').1
            | vBool b =>
              simp [record_payment, hfind, hm, ha, hav, hyv] at ht'
              exact (hwf t' ht').1
            | vInt n =>
              simp [record_payment, hfind, hm, ha, hav, hyv] at ht'
              exact (hwf t' ht').1
            | vFloat qq =>
              simp [record_payment, hfind, hm, ha, hav, hyv] at ht'
              exact (hwf t' ht').1
            | vList xs =>
              simp [record_payment, hfind, hm, ha, hav, hyv] at ht'
              exact (hwf t' ht').1
            | vDict dd =>
              simp [record_payment, hfind, hm, ha, hav, hyv] at ht'
              exact (hwf t' ht').1
            | vStr year =>
              have hs := hwf s (List.mem_of_find?_eq_some hfind)
              obtain ⟨s6, heq, hpm, hpr, hfr, hnest, hok1, hok2⟩ :=
                record_payment_spec doc sid data clock s year month av amt
                  hfind hs.2.1 hs.2.2 hyv hm ha hav
              rw [heq] at ht'
              rcases mem_updFirst _ _ _ t' ht' with hmem | rfl
              · exact (hwf t' hmem).1
              · intro y m hsome
                by_cases hy : y = year
                · subst hy
                  by_cases hmk : m = toString month
                  · subst hmk
                    exact hpm
                  · rw [(hnest y m (Or.inr hmk)).2] at hsome
                    rw [(hnest y m (Or.inr hmk)).1]
                    exact hs.1 y m hsome
                · rw [(hnest y m (Or.inl hy)).2] at hsome
                  rw [(hnest y m (Or.inl hy)).1]
                  exact hs.1 y m hsome
  · intro sdoc adoc rid clock hwf t' ht'
    cases hfind : adoc.requests.find? (hasId rid) with
    | none =>
      simp [approve_admission, hfind] at ht'
      exact hwf t' ht'
    | some adm =>
      cases hst : dLookup adm "status" with
      | none =>
        simp [approve_admission, hfind, hst] at ht'
        exact hwf t' ht'
      | some st =>
        cases hsp : statusIsPending st with
        | false =>
          simp [approve_admission, hfind, hst, hsp] at ht'
          exact hwf t' ht'
        | true =>
          cases hnum : pyNum (dGetD adm "admissionDate" (.vInt clock.nowMs)) with
          | none =>
            simp [approve_admission, hfind, hst, hsp, hnum] at ht'
            exact hwf t' ht'
          | some q =>
            cases hall : admissionReadFields.all (fun f => dHasKey adm f) with
            | false =>
              simp [approve_admission, hfind, hst, hsp, hnum, hall] at ht'
              exact hwf t' ht'
            | true =>
              simp [approve_admission, hfind, hst, hsp, hnum, hall] at ht'
              rcases ht' with hmem | rfl
              · exact hwf t' hmem
              · intro y m hsome
                simp [nestedAt, approved_student_of, dLookup] at hsome

/-- Witness for the amended C8 at concrete documents. -/
theorem invariant_preserved_by_payment_and_approval_witness :
    (∀ t' ∈ (record_payment doc_pay 1 pay_data1 clock0).doc.students, StudentInv t') ∧
    ∀ t' ∈ (approve_admission sdoc0 adoc_pending 1 clock0).sdoc.students, StudentInv t' :=
  ⟨invariant_preserved_by_payment_and_approval.1 doc_pay 1 pay_data1 clock0
      (by
        intro t ht
        have ht' : t = s_pay := by simpa [doc_pay] using ht
        subst ht'
        exact ⟨fun y m h => by simp [nestedAt, s_pay, dLookup] at h,
          ⟨rfl, fun _ => rfl⟩, ⟨rfl, fun _ => rfl⟩⟩),
   invariant_preserved_by_payment_and_approval.2 sdoc0 adoc_pending 1 clock0
      (by intro t ht; simp [sdoc0] at ht)⟩

end ArtsServer
